import Mathlib

/-!
Verification of the invoice-consolidation core of the smartbots-etl
repository: a shallow embedding of the domain entities
(`src/domain/entities.py`), the money parser
(`src/application/transformers.py`), the upsert / reconciliation /
status-derivation logic of the consolidation use case
(`src/application/use_cases/consolidate_invoices.py`) and the
idempotency check backed by the tracking store
(`src/infrastructure/sqlite_tracker.py`).

Money amounts (Python `Decimal`) are modelled as exact rationals `ℚ`;
dates are modelled as an abstract ordinal `Int` (only equality of dates
is ever used by the embedded code); Python exceptions raised by the
embedded functions are modelled with `Except`.
-/

/-- Characters removed by Python's `str.strip()` (ASCII whitespace). -/
def pyWhitespace (c : Char) : Bool :=
  c == ' ' || c == '\t' || c == '\n' || c == '\x0d' || c == '\x0b' || c == '\x0c'

/-- Python `str.strip()` on a character list: drop leading and trailing
whitespace. -/
def trimChars (l : List Char) : List Char :=
  ((l.dropWhile pyWhitespace).reverse.dropWhile pyWhitespace).reverse

/-- Python `str.strip()` on a `String`. -/
def pyStrip (s : String) : String :=
  String.mk (trimChars s.data)

/-- Python truthiness test `not s or not s.strip()` used by
`InvoiceRecord.__post_init__`: the string is empty or whitespace-only. -/
def isBlank (s : String) : Bool :=
  (trimChars s.data).isEmpty

/-- `RecordStatus` enum from `src/domain/entities.py`. -/
inductive RecordStatus where
  | NEW
  | UPDATED
  | UNCHANGED
  | ERROR
  deriving DecidableEq, Repr

/-- `InvoiceRecord` dataclass from `src/domain/entities.py` (raw fields;
the `__post_init__` validation is the separate function `postInit`).
`invoice_date` and `processed_at` are abstract time ordinals: the embedded
code only ever compares dates for equality. -/
structure InvoiceRecord where
  invoice_number : String
  reference_number : String
  carrier_name : String
  ship_name : String
  dispatch_guides : String
  invoice_date : Int
  description : String
  net_amount : ℚ
  tax_amount : ℚ
  total_amount : ℚ
  currency : String := "CLP"
  fecha_recepcion_digital : String := ""
  aprobado_por : String := ""
  estado_operaciones : String := ""
  fecha_aprobacion_operaciones : String := ""
  source_file : Option String := none
  processed_at : Option Int := none
  status : RecordStatus := RecordStatus.NEW
  deriving DecidableEq, Repr

/-- `InvoiceRecord.primary_key`: the composite key
`(invoice_number.strip(), reference_number.strip())`. -/
def primaryKey (r : InvoiceRecord) : String × String :=
  (pyStrip r.invoice_number, pyStrip r.reference_number)

/-- `InvoiceRecord.has_changes_vs`: business-field comparison, ignoring
description, workflow metadata and processing metadata. -/
def hasChangesVs (self other : InvoiceRecord) : Bool :=
  self.carrier_name != other.carrier_name
    || self.ship_name != other.ship_name
    || self.dispatch_guides != other.dispatch_guides
    || self.invoice_date != other.invoice_date
    || self.net_amount != other.net_amount
    || self.tax_amount != other.tax_amount
    || self.total_amount != other.total_amount

/-- `InvoiceRecord.__post_init__`: domain-invariant validation run at
construction.  A `ValueError` is modelled as `Except.error`; a record
that passes every check is returned unchanged. -/
def postInit (r : InvoiceRecord) : Except String InvoiceRecord :=
  if isBlank r.invoice_number then
    .error "invoice_number no puede estar vacio"
  else if isBlank r.reference_number then
    .error "reference_number no puede estar vacio"
  else if isBlank r.carrier_name then
    .error "carrier_name no puede estar vacio"
  else if r.total_amount < 0 then
    .error "total_amount no puede ser negativo"
  else if |r.total_amount - (r.net_amount + r.tax_amount)| > 1 then
    .error "total_amount no coincide con net + tax"
  else
    .ok r

/-- Whether an `Except` computation succeeded. -/
def exOk {ε α : Type} : Except ε α → Bool
  | .ok _ => true
  | .error _ => false

/-- Value of a digit string read in base 10 (used by the decimal-literal
parser below). -/
def digitsToNat (l : List Char) : Nat :=
  l.foldl (fun n c => 10 * n + (c.toNat - '0'.toNat)) 0

/-- The plain fixed-point fragment of Python's `Decimal(str)` grammar:
optional sign, an integer part and/or a fractional part separated by a
single dot.  Exponent and special-value forms (`1E3`, `NaN`, `Infinity`)
are never produced by the money strings this ETL handles and are not
modelled: on them, as on any other non-literal, the parser returns
`none` (Python raises `InvalidOperation`). -/
def parseDecimalCore (l : List Char) : Option ℚ :=
  let ip := l.takeWhile Char.isDigit
  let rest := l.dropWhile Char.isDigit
  match rest with
  | [] => if ip.isEmpty then none else some (mkRat (digitsToNat ip) 1)
  | c :: frac =>
    if c == '.' && frac.all Char.isDigit && !(ip.isEmpty && frac.isEmpty) then
      some (mkRat (digitsToNat ip * 10 ^ frac.length + digitsToNat frac) (10 ^ frac.length))
    else
      none

/-- Sign handling of `Decimal(str)` on top of `parseDecimalCore`. -/
def parseDecimalLit (l : List Char) : Option ℚ :=
  match l with
  | '-' :: rest => (parseDecimalCore rest).map (fun q => -q)
  | '+' :: rest => parseDecimalCore rest
  | _ => parseDecimalCore l

/-- Python `s.rindex(c)`: index of the last occurrence of `c`
(only called when `c` is known to occur in `s`; returns 0 otherwise). -/
def lastIdxOf (l : List Char) (c : Char) : Nat :=
  l.enum.foldl (fun acc p => if p.2 == c then p.1 else acc) 0

/-- `RowTransformer._parse_money` from `src/application/transformers.py`,
restricted to string input (the `Decimal` / `int` / `float` passthrough
branches concern non-string cell values and are outside this model):
strip, remove `$` and spaces, disambiguate `.` / `,` as thousands or
decimal separators, then parse with `Decimal`; failure raises
`ValueError` (modelled as `Except.error`). -/
def parseMoney (value : String) : Except String ℚ :=
  let s0 := trimChars value.data
  let s1 := s0.filter (fun c => !(c == '$' || c == ' '))
  let s2 :=
    if s1.contains '.' && s1.contains ',' then
      if lastIdxOf s1 '.' > lastIdxOf s1 ',' then
        s1.filter (fun c => !(c == ','))
      else
        (s1.filter (fun c => !(c == '.'))).map (fun c => if c == ',' then '.' else c)
    else if s1.contains ',' && s1.count ',' == 1 then
      s1.map (fun c => if c == ',' then '.' else c)
    else if s1.contains '.' && s1.count '.' > 1 then
      s1.filter (fun c => !(c == '.'))
    else if s1.contains '.' && s1.count '.' == 1 then
      if ((s1.dropWhile (fun c => !(c == '.'))).drop 1).length == 3 then
        s1.filter (fun c => !(c == '.'))
      else
        s1
    else
      s1
  match parseDecimalLit s2 with
  | some q => .ok q
  | none => .error ("Monto invalido: " ++ value)

deriving instance DecidableEq for Except

/-- Composite primary key type: `(invoice_number, reference_number)`. -/
abbrev PKey := String × String

/-- Python `pk in existing_map`. -/
def alistContains (m : List (PKey × InvoiceRecord)) (k : PKey) : Bool :=
  m.any (fun p => p.1 = k)

/-- Python `existing_map[pk] = record`: a `dict` assignment keeps the
original position of an existing key and appends a brand-new key at the
end (insertion order). -/
def alistSet (m : List (PKey × InvoiceRecord)) (k : PKey) (v : InvoiceRecord) :
    List (PKey × InvoiceRecord) :=
  if alistContains m k then
    m.map (fun p => if p.1 = k then (k, v) else p)
  else
    m ++ [(k, v)]

/-- Python `existing_map.get(pk)`. -/
def alistLookup (m : List (PKey × InvoiceRecord)) (k : PKey) : Option InvoiceRecord :=
  (m.find? (fun p => p.1 = k)).map Prod.snd

/-- `_upsert` line `existing_map = {r.primary_key: r for r in existing}`:
the key→record map built from the ledger snapshot (later duplicates of a
key overwrite earlier ones, as in a Python dict comprehension). -/
def buildMap (existing : List InvoiceRecord) : List (PKey × InvoiceRecord) :=
  existing.foldl (fun m r => alistSet m (primaryKey r) r) []

/-- `UpsertResult` dataclass from `src/application/dtos.py`. -/
structure UpsertResult where
  inserted : Nat := 0
  updated : Nat := 0
  unchanged : Nat := 0
  all_records : List InvoiceRecord := []
  deriving DecidableEq, Repr

/-- One iteration of `_upsert`'s loop over the incoming records: a key
already present in the map is skipped (`continue`); a new key is
appended to the map and counted as inserted. -/
def upsertStep (st : List (PKey × InvoiceRecord) × Nat) (r : InvoiceRecord) :
    List (PKey × InvoiceRecord) × Nat :=
  if alistContains st.1 (primaryKey r) then st
  else (st.1 ++ [(primaryKey r, r)], st.2 + 1)

/-- The map and inserted counter after `_upsert`'s loop. -/
def upsertState (existing incoming : List InvoiceRecord) :
    List (PKey × InvoiceRecord) × Nat :=
  incoming.foldl upsertStep (buildMap existing, 0)

/-- `ConsolidateInvoicesUseCase._upsert`: merge the incoming batch into
the ledger snapshot.  The loop only ever inserts brand-new keys;
existing keys are skipped, so `updated` and `unchanged` keep the
`UpsertResult` defaults of 0.  `all_records` is `existing_map.values()`
in insertion order. -/
def upsert (existing incoming : List InvoiceRecord) : UpsertResult :=
  let st := upsertState existing incoming
  { inserted := st.2, updated := 0, unchanged := 0,
    all_records := st.1.map Prod.snd }

/-- `ReconciliationError` from `src/domain/exceptions.py`. -/
structure ReconciliationError where
  data_loss_pct : ℚ
  amount_variance : ℚ
  deriving DecidableEq, Repr

/-- `ConsolidateInvoicesUseCase._reconcile`: fail if an incoming key is
missing from the upsert result (data loss, with the lost percentage), or
if the total amounts of the incoming records and of the result records
whose keys are incoming keys differ by more than 1 currency unit (with
the variance).  On success, return the two totals that the caller adds
to the report. -/
def reconcile (source_records all_records : List InvoiceRecord) :
    Except ReconciliationError (ℚ × ℚ) :=
  let sourcePks := (source_records.map primaryKey).dedup
  let resultPks := (all_records.map primaryKey).dedup
  let missing := sourcePks.filter (fun pk => decide (pk ∉ resultPks))
  if missing.isEmpty then
    let sourceTotal := (source_records.map (fun r => r.total_amount)).sum
    let subset := all_records.filter (fun r => decide (primaryKey r ∈ sourcePks))
    let resultTotal := (subset.map (fun r => r.total_amount)).sum
    let variance := |sourceTotal - resultTotal|
    if variance > 1 then
      .error { data_loss_pct := 0, amount_variance := variance }
    else
      .ok (sourceTotal, resultTotal)
  else
    .error { data_loss_pct := (missing.length : ℚ) / (sourcePks.length : ℚ) * 100,
             amount_variance := 0 }

/-- Run status strings used by `execute` and `ExecutionReport.status`. -/
inductive RunStatus where
  | SUCCESS
  | PARTIAL
  | ERROR
  | NO_FILES
  deriving DecidableEq, Repr

/-- `execute` lines 137-142: final status from the per-file error list
(the NO_FILES case returns earlier and is handled in `executeRun`). -/
def deriveFileStatus (sourceFiles filesWithErrors : List String) : RunStatus :=
  if filesWithErrors.isEmpty then RunStatus.SUCCESS
  else if filesWithErrors.length < sourceFiles.length then RunStatus.PARTIAL
  else RunStatus.ERROR

/-- Abstract outcomes of the collaborators `execute` talks to:
whether the consolidated ledger file is found, the listed source files,
the names of the files whose per-file processing failed (those errors
are contained inside `_process_file`), whether an unhandled exception
escapes the backup/processing sequence, and whether
`drive.restore_backup` would succeed if it were called. -/
structure RunEnv where
  consolidatedFileId : Option String
  sourceFiles : List String
  filesWithErrors : List String
  fatalException : Bool
  restoreWouldSucceed : Bool

/-- The observable outcome of one `execute` run: the report status and
rollback flag, plus model instrumentation recording whether
`drive.restore_backup` was actually called. -/
structure RunReport where
  status : RunStatus
  rollbackExecuted : Bool
  restoreAttempted : Bool
  deriving DecidableEq, Repr

/-- `execute`'s `except` handler: status is set to ERROR, and the backup
is restored only under the guard `if backup_file_id and
consolidated_file_id:`. -/
def exceptHandler (backupFileId consolidatedFileId : Option String)
    (restoreWouldSucceed : Bool) : RunReport :=
  if backupFileId.isSome && consolidatedFileId.isSome then
    if restoreWouldSucceed then
      { status := RunStatus.ERROR, rollbackExecuted := true, restoreAttempted := true }
    else
      { status := RunStatus.ERROR, rollbackExecuted := false, restoreAttempted := true }
  else
    { status := RunStatus.ERROR, rollbackExecuted := false, restoreAttempted := false }

/-- Control flow of `ConsolidateInvoicesUseCase.execute`.  The local
variable `backup_file_id` is initialized to `None` at the top of
`execute` and never assigned again anywhere in the method (the backup
created by `lifecycle.backup_consolidated` is stored only in
`report.backup_folder_id`), so the handler's guard sees `None`.
A missing consolidated file raises `FileNotFoundError` into the handler;
an empty source list returns NO_FILES before any backup; otherwise a
fatal exception reaches the handler, or the loop finishes and the final
status is derived from the per-file error list. -/
def executeRun (env : RunEnv) : RunReport :=
  let backupFileId : Option String := none
  match env.consolidatedFileId with
  | none => exceptHandler backupFileId none env.restoreWouldSucceed
  | some cid =>
    if env.sourceFiles.isEmpty then
      { status := RunStatus.NO_FILES, rollbackExecuted := false, restoreAttempted := false }
    else if env.fatalException then
      exceptHandler backupFileId (some cid) env.restoreWouldSucceed
    else
      { status := deriveFileStatus env.sourceFiles env.filesWithErrors,
        rollbackExecuted := false, restoreAttempted := false }

/-- One row of the `file_log` table kept by the SQLite tracker. -/
structure FileLogEntry where
  file_name : String
  file_modified_time : String
  status : String
  deriving DecidableEq, Repr

/-- A source file as listed by the drive repository. -/
structure FileInfo where
  name : String
  fileId : String
  modifiedTime : String
  deriving DecidableEq, Repr

/-- `SqliteTracker.is_file_processed`: the SQL query
`SELECT 1 FROM file_log WHERE file_name=? AND file_modified_time=? AND
status='COMPLETED' LIMIT 1` over the embedded `file_log` rows. -/
def isFileProcessed (log : List FileLogEntry) (name modifiedTime : String) : Bool :=
  log.any (fun e =>
    e.file_name == name && e.file_modified_time == modifiedTime && e.status == "COMPLETED")

/-- Externally visible effects a per-file pass can perform. -/
inductive FileEffect where
  | logFileStart
  | moveToInProcess
  | ledgerWrite
  | moveToBackup
  | logFileFinish (status : String)
  deriving DecidableEq, Repr

/-- `_process_file` step 1 (`_is_file_already_processed`): when the
tracker already holds a COMPLETED `file_log` row for this exact
(name, modified_time) pair the method returns before doing anything, so
the tracker state is unchanged and no effect is performed; otherwise the
rest of the pipeline (steps 2-8, abstracted as `runPipeline` because it
is driven by I/O collaborators) runs. -/
def processFile (log : List FileLogEntry) (f : FileInfo)
    (runPipeline : List FileLogEntry → FileInfo → List FileLogEntry × List FileEffect) :
    List FileLogEntry × List FileEffect :=
  if isFileProcessed log f.name f.modifiedTime then (log, [])
  else runPipeline log f

/-- Number of COMPLETED `file_log` rows for a (name, modified_time)
pair. -/
def completedCount (log : List FileLogEntry) (name modifiedTime : String) : Nat :=
  (log.filter (fun e =>
    e.file_name == name && e.file_modified_time == modifiedTime &&
      e.status == "COMPLETED")).length

/-- A ledger record with key (F-001, R-001) and total 119000. -/
def recA : InvoiceRecord :=
  { invoice_number := "F-001", reference_number := "R-001",
    carrier_name := "Transportes Sur", ship_name := "Nave Uno",
    dispatch_guides := "G-10", invoice_date := 20250110,
    description := "flete", net_amount := 100000, tax_amount := 19000,
    total_amount := 119000, aprobado_por := "MV",
    estado_operaciones := "APROBADA" }

/-- An incoming record with the same key as `recA` but different
business fields (total 142800). -/
def recAinc : InvoiceRecord :=
  { invoice_number := "F-001", reference_number := "R-001",
    carrier_name := "Transportes Sur", ship_name := "Nave Uno",
    dispatch_guides := "G-10", invoice_date := 20250110,
    description := "flete actualizado", net_amount := 120000,
    tax_amount := 22800, total_amount := 142800,
    source_file := some "archivo.xlsx" }

/-- An incoming record whose business fields exactly match `recA` but
whose ledger-only metadata differs. -/
def recASame : InvoiceRecord :=
  { invoice_number := "F-001", reference_number := "R-001",
    carrier_name := "Transportes Sur", ship_name := "Nave Uno",
    dispatch_guides := "G-10", invoice_date := 20250110,
    description := "flete", net_amount := 100000, tax_amount := 19000,
    total_amount := 119000, source_file := some "archivo.xlsx" }

/-- An incoming record with the brand-new key (F-005, R-005). -/
def recB : InvoiceRecord :=
  { invoice_number := "F-005", reference_number := "R-005",
    carrier_name := "Transportes Norte", ship_name := "Nave Dos",
    dispatch_guides := "G-22", invoice_date := 20250115,
    description := "flete nuevo", net_amount := 300000,
    tax_amount := 57000, total_amount := 357000,
    source_file := some "archivo.xlsx" }

/-- A raw record whose invoice number is blank. -/
def recBlankInv : InvoiceRecord :=
  { recA with invoice_number := "   " }

/-- The pairs of the map only grow along `_upsert`'s loop: every step
either leaves the state alone or appends one new pair. -/
theorem foldl_upsertStep_append (l : List InvoiceRecord)
    (st : List (PKey × InvoiceRecord) × Nat) :
    ∃ rest, (l.foldl upsertStep st).1 = st.1 ++ rest := by
  induction l generalizing st with
  | nil => exact ⟨[], (List.append_nil _).symm⟩
  | cons r l ih =>
    obtain ⟨rest, hrest⟩ := ih (upsertStep st r)
    rw [List.foldl_cons]
    by_cases h : alistContains st.1 (primaryKey r) = true
    · exact ⟨rest, by rw [hrest]; simp [upsertStep, h]⟩
    · refine ⟨(primaryKey r, r) :: rest, ?_⟩
      rw [hrest]
      simp [upsertStep, h, List.append_assoc]

/-- Key membership in the map is preserved by `_upsert`'s loop. -/
theorem alistContains_foldl (l : List InvoiceRecord)
    (st : List (PKey × InvoiceRecord) × Nat) (k : PKey)
    (h : alistContains st.1 k = true) :
    alistContains (l.foldl upsertStep st).1 k = true := by
  obtain ⟨rest, hrest⟩ := foldl_upsertStep_append l st
  unfold alistContains at h ⊢
  rw [hrest, List.any_append, h, Bool.true_or]

/-- After processing an incoming record, its key is in the map. -/
theorem alistContains_of_mem_foldl (l : List InvoiceRecord)
    (st : List (PKey × InvoiceRecord) × Nat) (r : InvoiceRecord)
    (h : r ∈ l) :
    alistContains (l.foldl upsertStep st).1 (primaryKey r) = true := by
  induction l generalizing st with
  | nil => cases h
  | cons a l ih =>
    rw [List.foldl_cons]
    rcases List.mem_cons.mp h with rfl | hmem
    · apply alistContains_foldl
      by_cases hc : alistContains st.1 (primaryKey r) = true
      · simp [upsertStep, hc]
      · have hstep : upsertStep st r = (st.1 ++ [(primaryKey r, r)], st.2 + 1) := by
          simp [upsertStep, hc]
        rw [hstep]
        simp [alistContains, List.any_append]
    · exact ih _ hmem

/-- Map entries present before `_upsert`'s loop still resolve to the
same record afterwards (the loop never replaces and never removes). -/
theorem alistLookup_foldl (l : List InvoiceRecord)
    (st : List (PKey × InvoiceRecord) × Nat) (k : PKey) (e : InvoiceRecord)
    (h : alistLookup st.1 k = some e) :
    alistLookup (l.foldl upsertStep st).1 k = some e := by
  obtain ⟨rest, hrest⟩ := foldl_upsertStep_append l st
  unfold alistLookup at h ⊢
  rw [hrest, List.find?_append]
  obtain ⟨p, hp, hpe⟩ := Option.map_eq_some'.mp h
  rw [hp]
  simpa using hpe

/-- Well-formedness of the key→record map: each pair's key is the
primary key of its record. -/
def mapWF (m : List (PKey × InvoiceRecord)) : Prop :=
  ∀ p ∈ m, p.1 = primaryKey p.2

/-- `dict` assignment with a record's own key preserves well-formedness. -/
theorem mapWF_alistSet (m : List (PKey × InvoiceRecord)) (v : InvoiceRecord)
    (h : mapWF m) : mapWF (alistSet m (primaryKey v) v) := by
  unfold alistSet
  split
  · intro p hp
    obtain ⟨q, hq, hqp⟩ := List.mem_map.mp hp
    by_cases hk : q.1 = primaryKey v
    · rw [if_pos hk] at hqp
      rw [← hqp]
    · rw [if_neg hk] at hqp
      rw [← hqp]; exact h q hq
  · intro p hp
    rcases List.mem_append.mp hp with hp | hp
    · exact h p hp
    · rcases List.mem_singleton.mp hp with rfl; rfl

/-- The map built from the ledger snapshot is well-formed. -/
theorem mapWF_buildMap (existing : List InvoiceRecord) :
    mapWF (buildMap existing) := by
  unfold buildMap
  suffices h : ∀ st, mapWF st →
      mapWF (existing.foldl (fun m r => alistSet m (primaryKey r) r) st) by
    exact h [] (by intro p hp; cases hp)
  induction existing with
  | nil => intro st h; exact h
  | cons r l ih =>
    intro st h
    rw [List.foldl_cons]
    exact ih _ (mapWF_alistSet st r h)

/-- The map stays well-formed through `_upsert`'s loop. -/
theorem mapWF_foldl_upsertStep (l : List InvoiceRecord)
    (st : List (PKey × InvoiceRecord) × Nat) (h : mapWF st.1) :
    mapWF (l.foldl upsertStep st).1 := by
  induction l generalizing st with
  | nil => exact h
  | cons r l ih =>
    rw [List.foldl_cons]
    apply ih
    unfold upsertStep
    split
    · exact h
    · intro p hp
      rcases List.mem_append.mp hp with hp | hp
      · exact h p hp
      · rcases List.mem_singleton.mp hp with rfl; rfl


/-- C1 counterexample: ledger `[recA]`, incoming `[recAinc]` with the
same key and different business fields per `has_changes_vs`.  The claim
requires the map entry to be replaced by the incoming record tagged
UPDATED and the updated counter to be incremented; `_upsert` instead
keeps the existing record and leaves the updated counter at 0. -/
theorem upsert_updated_claim_counterexample :
    hasChangesVs recAinc recA = true ∧
    (upsert [recA] [recAinc]).updated = 0 ∧
    (upsert [recA] [recAinc]).all_records = [recA] := by
  decide

/-- C1 (amended): when an incoming record's key is already present in
the ledger key-map, `_upsert` ignores the incoming record even when its
business fields differ per the has-changes comparator: the map keeps the
existing record and the updated counter is never incremented (it is
always 0). -/
theorem upsert_existing_key_ignored (existing incoming : List InvoiceRecord)
    (r e : InvoiceRecord)
    (hlook : alistLookup (buildMap existing) (primaryKey r) = some e)
    (hchanged : hasChangesVs r e = true) :
    alistLookup (upsertState existing incoming).1 (primaryKey r) = some e ∧
    (upsert existing incoming).updated = 0 := by
  refine ⟨alistLookup_foldl incoming _ _ _ hlook, rfl⟩

/-- C1 witness: the amended theorem applied to the concrete ledger
`[recA]` and incoming batch `[recAinc]`. -/
theorem upsert_existing_key_ignored_witness :
    alistLookup (upsertState [recA] [recAinc]).1 (primaryKey recAinc) = some recA ∧
    (upsert [recA] [recAinc]).updated = 0 :=
  upsert_existing_key_ignored [recA] [recAinc] recAinc recA (by decide) (by decide)

/-- C3: every incoming record's key is present in the key set of the
upsert result's `all_records` — no incoming key is silently dropped. -/
theorem upsert_no_key_dropped (existing incoming : List InvoiceRecord)
    (r : InvoiceRecord) (h : r ∈ incoming) :
    primaryKey r ∈ (upsert existing incoming).all_records.map primaryKey := by
  have hc := alistContains_of_mem_foldl incoming (buildMap existing, 0) r h
  have hwf := mapWF_foldl_upsertStep incoming (buildMap existing, 0)
    (mapWF_buildMap existing)
  unfold alistContains at hc
  obtain ⟨p, hp, hpk⟩ := List.any_eq_true.mp hc
  have hkey : p.1 = primaryKey r := of_decide_eq_true hpk
  have hwfp := hwf p hp
  show primaryKey r ∈ ((upsertState existing incoming).1.map Prod.snd).map primaryKey
  refine List.mem_map.mpr ⟨p.2, List.mem_map.mpr ⟨p, hp, rfl⟩, ?_⟩
  rw [← hwfp, hkey]

/-- C3 witness: the theorem applied to ledger `[recA]` and incoming
batch `[recAinc, recB]` at the record `recB`. -/
theorem upsert_no_key_dropped_witness :
    recB ∈ [recAinc, recB] ∧
    primaryKey recB ∈ (upsert [recA] [recAinc, recB]).all_records.map primaryKey :=
  ⟨by decide, upsert_no_key_dropped [recA] [recAinc, recB] recB (by decide)⟩

/-- C7: when an incoming record's key resolves to an existing ledger
record whose business fields are exactly equal per the comparator, the
existing record — with its ledger-only metadata — is the one present in
the upsert result set. -/
theorem upsert_unchanged_keeps_existing (existing incoming : List InvoiceRecord)
    (r e : InvoiceRecord) (hmem : r ∈ incoming)
    (hlook : alistLookup (buildMap existing) (primaryKey r) = some e)
    (hnochange : hasChangesVs r e = false) :
    alistLookup (upsertState existing incoming).1 (primaryKey r) = some e ∧
    e ∈ (upsert existing incoming).all_records := by
  have hl := alistLookup_foldl incoming (buildMap existing, 0) (primaryKey r) e hlook
  refine ⟨hl, ?_⟩
  unfold alistLookup at hl
  obtain ⟨p, hp, hpe⟩ := Option.map_eq_some'.mp hl
  show e ∈ (upsertState existing incoming).1.map Prod.snd
  exact List.mem_map.mpr ⟨p, List.mem_of_find?_eq_some hp, hpe⟩

/-- C7 witness: the theorem applied to ledger `[recA]` and the incoming
record `recASame`, whose business fields match `recA` exactly while its
metadata differs. -/
theorem upsert_unchanged_keeps_existing_witness :
    recASame ∈ [recASame, recB] ∧
    hasChangesVs recASame recA = false ∧
    (alistLookup (upsertState [recA] [recASame, recB]).1 (primaryKey recASame) =
        some recA ∧
      recA ∈ (upsert [recA] [recASame, recB]).all_records) :=
  ⟨by decide, by decide,
    upsert_unchanged_keeps_existing [recA] [recASame, recB] recASame recA
      (by decide) (by decide) (by decide)⟩

/-- C4: assuming no incoming key is missing from the result (the check
performed first), `_reconcile` raises a `ReconciliationError` carrying
the variance amount exactly when the absolute difference between the
incoming total and the total of the result records whose keys are among
the incoming keys exceeds 1 currency unit. -/
theorem reconcile_variance_iff (src res : List InvoiceRecord)
    (hkeys : ∀ r ∈ src, primaryKey r ∈ res.map primaryKey) :
    (reconcile src res =
      .error ⟨0, |(src.map (fun r => r.total_amount)).sum -
          ((res.filter (fun r => decide (primaryKey r ∈ (src.map primaryKey).dedup))).map
            (fun r => r.total_amount)).sum|⟩) ↔
    |(src.map (fun r => r.total_amount)).sum -
      ((res.filter (fun r => decide (primaryKey r ∈ (src.map primaryKey).dedup))).map
        (fun r => r.total_amount)).sum| > 1 := by
  have hmiss : ((src.map primaryKey).dedup.filter
      (fun pk => decide (pk ∉ (res.map primaryKey).dedup))) = [] := by
    apply List.filter_eq_nil_iff.mpr
    intro pk hpk
    have hpk2 : pk ∈ src.map primaryKey := List.mem_dedup.mp hpk
    obtain ⟨r, hr, hrpk⟩ := List.mem_map.mp hpk2
    have : pk ∈ (res.map primaryKey).dedup :=
      List.mem_dedup.mpr (hrpk ▸ hkeys r hr)
    simp [this]
  simp only [reconcile]
  rw [hmiss]
  simp only [List.isEmpty_nil, if_true]
  by_cases hv : |(src.map (fun r => r.total_amount)).sum -
      ((res.filter (fun r => decide (primaryKey r ∈ (src.map primaryKey).dedup))).map
        (fun r => r.total_amount)).sum| > 1
  · simp [hv]
  · simp [hv]

/-- C4 witness: incoming `[recAinc]` against result `[recA]` — same key,
totals 142800 vs 119000, variance 23800 > 1. -/
theorem reconcile_variance_iff_witness :
    (∀ r ∈ [recAinc], primaryKey r ∈ [recA].map primaryKey) ∧
    ((reconcile [recAinc] [recA] =
      .error ⟨0, |([recAinc].map (fun r => r.total_amount)).sum -
          (([recA].filter
              (fun r => decide (primaryKey r ∈ ([recAinc].map primaryKey).dedup))).map
            (fun r => r.total_amount)).sum|⟩) ↔
    |([recAinc].map (fun r => r.total_amount)).sum -
      (([recA].filter
          (fun r => decide (primaryKey r ∈ ([recAinc].map primaryKey).dedup))).map
        (fun r => r.total_amount)).sum| > 1) :=
  ⟨by decide, reconcile_variance_iff [recAinc] [recA] (by decide)⟩

/-- C5: final status derivation of `execute` — no source files gives
NO_FILES; no errored file gives SUCCESS; some but not all files errored
gives PARTIAL; all files errored gives ERROR. -/
theorem run_status_matches_file_outcomes (env : RunEnv)
    (hc : env.consolidatedFileId.isSome = true)
    (hfatal : env.fatalException = false) :
    (env.sourceFiles = [] → (executeRun env).status = RunStatus.NO_FILES) ∧
    (env.sourceFiles ≠ [] → env.filesWithErrors = [] →
      (executeRun env).status = RunStatus.SUCCESS) ∧
    (env.filesWithErrors ≠ [] →
      env.filesWithErrors.length < env.sourceFiles.length →
      (executeRun env).status = RunStatus.PARTIAL) ∧
    (env.sourceFiles ≠ [] →
      env.filesWithErrors.length = env.sourceFiles.length →
      (executeRun env).status = RunStatus.ERROR) := by
  obtain ⟨cid, hcid⟩ := Option.isSome_iff_exists.mp hc
  refine ⟨?_, ?_, ?_, ?_⟩
  · intro hsf
    simp [executeRun, hcid, hsf]
  · intro hsf herr
    simp [executeRun, hcid, hfatal, deriveFileStatus, herr,
      List.isEmpty_iff, hsf]
  · intro herr hlt
    have hsf : env.sourceFiles ≠ [] := by
      intro hnil
      rw [hnil] at hlt
      simp at hlt
    have hnlt : ¬ env.filesWithErrors.isEmpty = true := by
      simp [List.isEmpty_iff, herr]
    simp [executeRun, hcid, hfatal, deriveFileStatus, List.isEmpty_iff, hsf,
      herr, hlt]
  · intro hsf heq
    have herr : env.filesWithErrors ≠ [] := by
      intro hnil
      rw [hnil] at heq
      have : env.sourceFiles = [] := List.eq_nil_of_length_eq_zero heq.symm
      exact hsf this
    have hnlt : ¬ env.filesWithErrors.length < env.sourceFiles.length := by
      rw [heq]; exact lt_irrefl _
    simp [executeRun, hcid, hfatal, deriveFileStatus, List.isEmpty_iff, hsf,
      herr, hnlt]

/-- A run in which the per-file loop leaves one of two files errored. -/
def envMixed : RunEnv :=
  { consolidatedFileId := some "consol-id",
    sourceFiles := ["a.xlsx", "b.xlsx"],
    filesWithErrors := ["a.xlsx"],
    fatalException := false,
    restoreWouldSucceed := false }

/-- C5 witness: the status-derivation theorem applied to `envMixed`. -/
theorem run_status_matches_file_outcomes_witness :
    (envMixed.sourceFiles = [] → (executeRun envMixed).status = RunStatus.NO_FILES) ∧
    (envMixed.sourceFiles ≠ [] → envMixed.filesWithErrors = [] →
      (executeRun envMixed).status = RunStatus.SUCCESS) ∧
    (envMixed.filesWithErrors ≠ [] →
      envMixed.filesWithErrors.length < envMixed.sourceFiles.length →
      (executeRun envMixed).status = RunStatus.PARTIAL) ∧
    (envMixed.sourceFiles ≠ [] →
      envMixed.filesWithErrors.length = envMixed.sourceFiles.length →
      (executeRun envMixed).status = RunStatus.ERROR) :=
  run_status_matches_file_outcomes envMixed rfl rfl

/-- C2: on a fatal exception escaping the run-level sequence, `execute`
does mark the run ERROR, but it never calls `drive.restore_backup` and
the report's `rollback_executed` flag stays false, whatever the restore
would have done — the handler's guard reads the local `backup_file_id`,
which is initialized to `None` and never assigned. -/
theorem execute_fatal_error_no_rollback (env : RunEnv)
    (hc : env.consolidatedFileId.isSome = true)
    (hsf : env.sourceFiles ≠ [])
    (hfatal : env.fatalException = true) :
    (executeRun env).status = RunStatus.ERROR ∧
    (executeRun env).restoreAttempted = false ∧
    (executeRun env).rollbackExecuted = false := by
  obtain ⟨cid, hcid⟩ := Option.isSome_iff_exists.mp hc
  simp [executeRun, hcid, hfatal, exceptHandler, List.isEmpty_iff, hsf]

/-- A run that finds the ledger, lists one source file, takes its
backup, then hits an unhandled exception; the restore itself would
succeed if it were ever invoked. -/
def envFatal : RunEnv :=
  { consolidatedFileId := some "consol-id",
    sourceFiles := ["test.xlsx"],
    filesWithErrors := [],
    fatalException := true,
    restoreWouldSucceed := true }

/-- C2 witness: the fatal-path theorem applied to `envFatal`. -/
theorem execute_fatal_error_no_rollback_witness :
    (executeRun envFatal).status = RunStatus.ERROR ∧
    (executeRun envFatal).restoreAttempted = false ∧
    (executeRun envFatal).rollbackExecuted = false :=
  execute_fatal_error_no_rollback envFatal rfl (by simp [envFatal]) rfl

/-- C6: the money-parser vectors from the spec — Chilean dotted
thousands, US grouping, European grouping, the single-dot three-digit
thousands convention, and a non-numeric value raising a per-field
error. -/
theorem parse_money_round_trip :
    parseMoney "1.234.567" = .ok 1234567 ∧
    parseMoney "1,234.56" = .ok (1234.56 : ℚ) ∧
    parseMoney "1.234,56" = .ok (1234.56 : ℚ) ∧
    parseMoney "12.345" = .ok 12345 ∧
    parseMoney "N/A" = .error "Monto invalido: N/A" := by
  have hq : (1234.56 : ℚ) = mkRat 123456 100 := by
    norm_num [Rat.mkRat_eq_div]
  refine ⟨by decide, ?_, ?_, by decide, by decide⟩
  · rw [hq]; decide
  · rw [hq]; decide

/-- C8: `InvoiceRecord` construction fails whenever the invoice number
or the reference number is blank after trimming, the total amount is
negative, or the total differs from net + tax by more than 1 currency
unit. -/
theorem post_init_rejects_invalid (r : InvoiceRecord)
    (h : isBlank r.invoice_number = true ∨ isBlank r.reference_number = true ∨
      r.total_amount < 0 ∨
      |r.total_amount - (r.net_amount + r.tax_amount)| > 1) :
    exOk (postInit r) = false := by
  simp only [postInit]
  split_ifs <;> simp_all [exOk]

/-- C8 witness: the rejection theorem applied to `recBlankInv`, whose
invoice number is whitespace-only. -/
theorem post_init_rejects_invalid_witness :
    (isBlank recBlankInv.invoice_number = true ∨
      isBlank recBlankInv.reference_number = true ∨
      recBlankInv.total_amount < 0 ∨
      |recBlankInv.total_amount - (recBlankInv.net_amount + recBlankInv.tax_amount)| > 1) ∧
    exOk (postInit recBlankInv) = false :=
  ⟨Or.inl (by decide), post_init_rejects_invalid recBlankInv (Or.inl (by decide))⟩

/-- C9: when the tracker already holds a COMPLETED file-log row for this
exact (file name, modification time) pair, the per-file pass skips
entirely: the tracker state is returned unchanged (so no second
COMPLETED entry for the pair), and no ledger write and no file move is
performed. -/
theorem process_file_skips_completed (log : List FileLogEntry) (f : FileInfo)
    (run : List FileLogEntry → FileInfo → List FileLogEntry × List FileEffect)
    (h : isFileProcessed log f.name f.modifiedTime = true) :
    processFile log f run = (log, []) ∧
    completedCount (processFile log f run).1 f.name f.modifiedTime =
      completedCount log f.name f.modifiedTime ∧
    (processFile log f run).2.count FileEffect.ledgerWrite = 0 ∧
    (processFile log f run).2.count FileEffect.moveToInProcess = 0 ∧
    (processFile log f run).2.count FileEffect.moveToBackup = 0 := by
  simp [processFile, h]

/-- A tracker state holding one COMPLETED row. -/
def logDone : List FileLogEntry :=
  [{ file_name := "f1.xlsx", file_modified_time := "2026-01-01T00:00:00Z",
     status := "COMPLETED" }]

/-- The same file, listed again with the same modification time. -/
def fileDone : FileInfo :=
  { name := "f1.xlsx", fileId := "id-1",
    modifiedTime := "2026-01-01T00:00:00Z" }

/-- A pipeline that, if it ran, would write the ledger and log a second
COMPLETED row. -/
def pipelineWrites :
    List FileLogEntry → FileInfo → List FileLogEntry × List FileEffect :=
  fun log f =>
    (log ++ [{ file_name := f.name, file_modified_time := f.modifiedTime,
               status := "COMPLETED" }],
     [FileEffect.logFileStart, FileEffect.moveToInProcess,
      FileEffect.ledgerWrite, FileEffect.moveToBackup,
      FileEffect.logFileFinish "COMPLETED"])

/-- C9 witness: the skip theorem applied to `logDone` and `fileDone`
against the writing pipeline. -/
theorem process_file_skips_completed_witness :
    processFile logDone fileDone pipelineWrites = (logDone, []) ∧
    completedCount (processFile logDone fileDone pipelineWrites).1
      fileDone.name fileDone.modifiedTime =
      completedCount logDone fileDone.name fileDone.modifiedTime ∧
    (processFile logDone fileDone pipelineWrites).2.count FileEffect.ledgerWrite = 0 ∧
    (processFile logDone fileDone pipelineWrites).2.count FileEffect.moveToInProcess = 0 ∧
    (processFile logDone fileDone pipelineWrites).2.count FileEffect.moveToBackup = 0 :=
  process_file_skips_completed logDone fileDone pipelineWrites (by decide)

/-- C10: every `InvoiceRecord` that survives construction has a
non-blank carrier name — `__post_init__` additionally rejects a blank
`carrier_name`, beyond the invariants the spec lists. -/
theorem constructed_record_carrier_nonblank (r r2 : InvoiceRecord)
    (h : postInit r = .ok r2) : isBlank r2.carrier_name = false := by
  simp only [postInit] at h
  split_ifs at h with h1 h2 h3 h4 h5
  all_goals try cases h
  simpa using h3

/-- C10 witness: the valid record `recA` passes construction and indeed
has a non-blank carrier name. -/
theorem constructed_record_carrier_nonblank_witness :
    postInit recA = .ok recA ∧ isBlank recA.carrier_name = false := by
  have hok : postInit recA = .ok recA := by
    have hb1 : isBlank recA.invoice_number = false := by decide
    have hb2 : isBlank recA.reference_number = false := by decide
    have hb3 : isBlank recA.carrier_name = false := by decide
    have ht : ¬ recA.total_amount < 0 := by norm_num [recA]
    have hx : ¬ |recA.total_amount - (recA.net_amount + recA.tax_amount)| > 1 := by
      norm_num [recA]
    simp [postInit, hb1, hb2, hb3, ht, hx]
  exact ⟨hok, constructed_record_carrier_nonblank recA recA hok⟩
